import Mathlib

/-!
Shallow embedding of the trading system's core (order book, matching
engine, risk manager) from the C++ sources, together with theorems
settling the specification claims.

Conventions of the embedding:
* `OrderId` = `Nat`, `Price` = `Int` (fixed-point, hundredths),
  `Quantity` = `Nat`, `Symbol` = `String`.
* C++ `double` fields (PnL, equity, order values) are modelled as `ℚ`;
  `priceToDouble(p) = p / 100.0` becomes exact division in `ℚ`.
* The C++ code shares each `Order` between the id-index
  (`orderMap_`) and its price level's deque through `shared_ptr`
  aliasing.  The embedding keeps the `orderMap` association list as the
  single store of order state; price levels hold order ids, and every
  read of a resting order's fields goes through the store.
-/

namespace Trading

/-- Model of `Side` from core/types.hpp. -/
inductive Side where
  | BUY
  | SELL
deriving DecidableEq, Repr

/-- Model of `OrderType` from core/types.hpp (STOP / STOP_LIMIT are declared but
never handled by the matching engine). -/
inductive OrderType where
  | MARKET
  | LIMIT
  | STOP
  | STOP_LIMIT
deriving DecidableEq, Repr

/-- Model of `OrderStatus` from core/types.hpp. -/
inductive OrderStatus where
  | NEW
  | PARTIALLY_FILLED
  | FILLED
  | CANCELLED
  | REJECTED
deriving DecidableEq, Repr

/-- Model of `priceToDouble` from core/types.hpp: fixed-point price to display
units (`double` modelled as `ℚ`). -/
def priceToRat (p : Int) : ℚ := (p : ℚ) / 100

/-- Model of `Order` from core/order.hpp.  The construction-time timestamp is
for telemetry only and is omitted. -/
structure Order where
  id : Nat
  symbol : String
  side : Side
  type : OrderType
  price : Int
  quantity : Nat
  remainingQuantity : Nat
  status : OrderStatus
deriving DecidableEq, Repr

namespace Order

/-- The limit-order constructor of `Order` (status NEW, remaining =
original quantity). -/
def mkLimit (id : Nat) (symbol : String) (side : Side) (type : OrderType)
    (price : Int) (quantity : Nat) : Order :=
  { id := id, symbol := symbol, side := side, type := type, price := price,
    quantity := quantity, remainingQuantity := quantity, status := .NEW }

/-- The market-order constructor of `Order` (type MARKET, price 0). -/
def mkMarket (id : Nat) (symbol : String) (side : Side) (quantity : Nat) :
    Order :=
  mkLimit id symbol side .MARKET 0 quantity

/-- Model of `Order::fillQuantity`: clamp to remaining, decrement, set FILLED or
PARTIALLY_FILLED. -/
def fillQuantity (o : Order) (qty : Nat) : Order :=
  let q := if qty > o.remainingQuantity then o.remainingQuantity else qty
  let rem := o.remainingQuantity - q
  { o with remainingQuantity := rem,
           status := if rem = 0 then .FILLED else .PARTIALLY_FILLED }

/-- Model of `Order::cancel`: status CANCELLED, remaining 0. -/
def cancel (o : Order) : Order :=
  { o with status := .CANCELLED, remainingQuantity := 0 }

/-- Model of `Order::isActive`. -/
def isActive (o : Order) : Bool :=
  o.status = .NEW || o.status = .PARTIALLY_FILLED

end Order

/-- Model of `Trade` from core/trade.hpp (construction-time timestamp omitted). -/
structure Trade where
  buyOrderId : Nat
  sellOrderId : Nat
  symbol : String
  price : Int
  quantity : Nat
deriving DecidableEq, Repr

/-- Model of `Trade::getValue`: display price times quantity. -/
def Trade.getValue (t : Trade) : ℚ := priceToRat t.price * (t.quantity : ℚ)

/-- Model of `PriceLevel` from engine/price_level.hpp.  The C++ deque holds
`shared_ptr<Order>`; the embedding holds the order ids in FIFO order,
with order state read from the book's `orderMap` store. -/
structure PriceLevel where
  price : Int
  totalQuantity : Nat
  orderIds : List Nat
deriving DecidableEq, Repr

/-- Erase the first occurrence of an id (the `std::find_if` +
`erase` in `PriceLevel::removeOrder`). -/
def removeFirstId : List Nat → Nat → List Nat
  | [], _ => []
  | x :: xs, oid => if x = oid then xs else x :: removeFirstId xs oid

namespace PriceLevel

/-- Model of `PriceLevel::addOrder` success path: push back, add the order's
remaining quantity to the cached total.  The C++ throws
`std::runtime_error` when `order.price ≠ level.price`; `OrderBook` only
calls this on the level keyed at the order's price, so that branch is
unreachable there and is modelled as the identity. -/
def addOrder (l : PriceLevel) (o : Order) : PriceLevel :=
  if o.price ≠ l.price then l
  else { l with orderIds := l.orderIds ++ [o.id],
                totalQuantity := l.totalQuantity + o.remainingQuantity }

/-- Model of `PriceLevel::removeOrder`: find the order by id, subtract the
order's *current* remaining quantity (read through the shared pointer,
passed here as `rem`) from the cached total, and erase it.  `Nat`
truncated subtraction models the `uint64_t -=`. -/
def removeOrder (l : PriceLevel) (oid : Nat) (rem : Nat) :
    Bool × PriceLevel :=
  if oid ∈ l.orderIds then
    (true, { l with totalQuantity := l.totalQuantity - rem,
                    orderIds := removeFirstId l.orderIds oid })
  else (false, l)

/-- Model of `PriceLevel::isEmpty`. -/
def isEmpty (l : PriceLevel) : Bool := l.orderIds.isEmpty

/-- Model of `PriceLevel::getOrderCount`. -/
def getOrderCount (l : PriceLevel) : Nat := l.orderIds.length

end PriceLevel

/-- A row of `OrderBook::getBidDepth` / `getAskDepth`. -/
structure DepthLevel where
  price : Int
  quantity : Nat
  orderCount : Nat
deriving DecidableEq, Repr

/-- Model of `OrderBook` from engine/order_book.hpp.  `bids` is kept sorted by
price strictly descending and `asks` strictly ascending, mirroring the
two `std::map` comparators; `orderMap` is the id-index and the single
store of resting-order state. -/
structure OrderBook where
  symbol : String
  bids : List PriceLevel
  asks : List PriceLevel
  orderMap : List (Nat × Order)
deriving DecidableEq, Repr

/-- Lookup in the id-index (`orderMap_.find`). -/
def lookupOrder : List (Nat × Order) → Nat → Option Order
  | [], _ => none
  | (k, o) :: rest, oid => if k = oid then some o else lookupOrder rest oid

/-- Write-back through the shared pointer: replace the stored order
with the mutated one. -/
def writeOrder : List (Nat × Order) → Nat → Order → List (Nat × Order)
  | [], _, _ => []
  | (k, o) :: rest, oid, o' =>
    if k = oid then (k, o') :: rest else (k, o) :: writeOrder rest oid o'

/-- Model of `orderMap_.erase`. -/
def eraseOrder : List (Nat × Order) → Nat → List (Nat × Order)
  | [], _ => []
  | (k, o) :: rest, oid =>
    if k = oid then rest else (k, o) :: eraseOrder rest oid

/-- Insert a level into the bid map (price comparator
`std::greater`): before the first level of smaller price. -/
def insertBidLevel (l : PriceLevel) : List PriceLevel → List PriceLevel
  | [] => [l]
  | x :: xs => if x.price < l.price then l :: x :: xs
               else x :: insertBidLevel l xs

/-- Insert a level into the ask map (price comparator `std::less`):
before the first level of larger price. -/
def insertAskLevel (l : PriceLevel) : List PriceLevel → List PriceLevel
  | [] => [l]
  | x :: xs => if l.price < x.price then l :: x :: xs
               else x :: insertAskLevel l xs

/-- Model of `addToBidSide` / `addToAskSide` body: find the level at the order's
price (creating it if absent, i.e. the `emplace`) and add the order. -/
def addToLevels (insert : PriceLevel → List PriceLevel → List PriceLevel)
    (levels : List PriceLevel) (o : Order) : List PriceLevel :=
  if (levels.find? (fun l => l.price = o.price)).isSome then
    levels.map (fun l => if l.price = o.price then l.addOrder o else l)
  else
    insert (PriceLevel.addOrder ⟨o.price, 0, []⟩ o) levels

/-- Model of `removeFromBidSide` / `removeFromAskSide` body: find the level at
`price`, remove the order (subtracting its current remaining `rem`),
and erase the level if it became empty. -/
def removeFromLevels : List PriceLevel → Int → Nat → Nat → List PriceLevel
  | [], _, _, _ => []
  | l :: ls, price, oid, rem =>
    if l.price = price then
      let l' := (l.removeOrder oid rem).2
      if l'.orderIds.isEmpty then ls else l' :: ls
    else l :: removeFromLevels ls price oid rem

namespace OrderBook

/-- A fresh `OrderBook` for a symbol. -/
def empty (symbol : String) : OrderBook :=
  { symbol := symbol, bids := [], asks := [], orderMap := [] }

/-- Model of `OrderBook::addOrder`: reject symbol mismatch and duplicate id,
otherwise add to the side keyed by the order's price and index it. -/
def addOrder (b : OrderBook) (o : Order) : Bool × OrderBook :=
  if o.symbol ≠ b.symbol then (false, b)
  else if (lookupOrder b.orderMap o.id).isSome then (false, b)
  else
    let b :=
      if o.side = .BUY then
        { b with bids := addToLevels insertBidLevel b.bids o }
      else
        { b with asks := addToLevels insertAskLevel b.asks o }
    (true, { b with orderMap := b.orderMap ++ [(o.id, o)] })

/-- Model of `OrderBook::cancelOrder`: look up by id; mutate the shared order
via `Order::cancel` (status CANCELLED, remaining 0) *before* removing
it from its price level, so the level subtraction sees remaining = 0;
finally erase the id from the index. -/
def cancelOrder (b : OrderBook) (oid : Nat) : Bool × OrderBook :=
  match lookupOrder b.orderMap oid with
  | none => (false, b)
  | some order =>
    let cancelled := order.cancel
    let b :=
      if order.side = .BUY then
        { b with bids := removeFromLevels b.bids order.price oid
                           cancelled.remainingQuantity }
      else
        { b with asks := removeFromLevels b.asks order.price oid
                           cancelled.remainingQuantity }
    (true, { b with orderMap := eraseOrder b.orderMap oid })

/-- Model of `OrderBook::modifyOrder`: cancel and re-insert a fresh NEW order
with the same id, symbol, side and type at the new price/quantity. -/
def modifyOrder (b : OrderBook) (oid : Nat) (newPrice : Int)
    (newQuantity : Nat) : Bool × OrderBook :=
  match lookupOrder b.orderMap oid with
  | none => (false, b)
  | some oldOrder =>
    let newOrder := Order.mkLimit oid oldOrder.symbol oldOrder.side
      oldOrder.type newPrice newQuantity
    let b := (b.cancelOrder oid).2
    b.addOrder newOrder

/-- Model of `OrderBook::getBestBid`: first key of the descending bid map. -/
def getBestBid (b : OrderBook) : Option Int := b.bids.head?.map (·.price)

/-- Model of `OrderBook::getBestAsk`: first key of the ascending ask map. -/
def getBestAsk (b : OrderBook) : Option Int := b.asks.head?.map (·.price)

/-- Model of `OrderBook::getBidDepth`. -/
def getBidDepth (b : OrderBook) (levels : Nat) : List DepthLevel :=
  (b.bids.take levels).map
    (fun l => ⟨l.price, l.totalQuantity, l.getOrderCount⟩)

/-- Model of `OrderBook::getAskDepth`. -/
def getAskDepth (b : OrderBook) (levels : Nat) : List DepthLevel :=
  (b.asks.take levels).map
    (fun l => ⟨l.price, l.totalQuantity, l.getOrderCount⟩)

/-- The sum of the remaining quantities of the orders currently queued
at a level, read from the book's store (the `Σ remaining` of the
PriceLevel invariant). -/
def levelRemainingSum (b : OrderBook) (l : PriceLevel) : Nat :=
  (l.orderIds.map
    (fun oid => ((lookupOrder b.orderMap oid).map
      Order.remainingQuantity).getD 0)).sum

end OrderBook

/-! ## Risk manager (risk/risk_manager.hpp) -/

/-- Model of `Position` from the risk manager.  `double` fields are `ℚ`. -/
structure Position where
  symbol : String
  quantity : Int
  averagePrice : ℚ
  realizedPnL : ℚ
  unrealizedPnL : ℚ
  totalBought : Nat
  totalSold : Nat
deriving DecidableEq, Repr

/-- The `Position()` default constructor (empty symbol, all zero). -/
def Position.default : Position :=
  { symbol := "", quantity := 0, averagePrice := 0, realizedPnL := 0,
    unrealizedPnL := 0, totalBought := 0, totalSold := 0 }

/-- Model of `RiskLimits`. -/
structure RiskLimits where
  maxOrderSize : Nat
  maxOrderValue : ℚ
  maxPositionSize : Int
  maxPositionValue : ℚ
  maxDailyLoss : ℚ
  maxDrawdown : ℚ
  maxOrdersPerSecond : Int
deriving DecidableEq, Repr

/-- The `RiskLimits()` default constructor. -/
def RiskLimits.default : RiskLimits :=
  { maxOrderSize := 10000, maxOrderValue := 1000000,
    maxPositionSize := 50000, maxPositionValue := 5000000,
    maxDailyLoss := 100000, maxDrawdown := 200000,
    maxOrdersPerSecond := 100 }

/-- Model of `RiskManager::ValidationResult`. -/
inductive ValidationResult where
  | ACCEPTED
  | REJECTED_ORDER_SIZE
  | REJECTED_ORDER_VALUE
  | REJECTED_POSITION_LIMIT
  | REJECTED_POSITION_VALUE
  | REJECTED_DAILY_LOSS
  | REJECTED_DRAWDOWN
  | REJECTED_RATE_LIMIT
deriving DecidableEq, Repr

/-- Model of `RiskManager` state: limits, the `positions_` table (an
`unordered_map` modelled as an association list in insertion order),
and the three `double` scalars. -/
structure RiskManager where
  limits : RiskLimits
  positions : List (String × Position)
  dailyPnL : ℚ
  peakEquity : ℚ
  currentEquity : ℚ
deriving DecidableEq, Repr

/-- Lookup in the `positions_` table (`positions_.find`). -/
def lookupPos : List (String × Position) → String → Option Position
  | [], _ => none
  | (k, p) :: rest, s => if k = s then some p else lookupPos rest s

/-- Model of `unordered_map::operator[]`: return the entry for `s`, default-
inserting `Position()` when absent.  Returns the (possibly fresh)
position together with the updated table. -/
def mapIndexPos (ps : List (String × Position)) (s : String) :
    Position × List (String × Position) :=
  match lookupPos ps s with
  | some p => (p, ps)
  | none => (Position.default, ps ++ [(s, Position.default)])

/-- Write back through the `operator[]` reference. -/
def writePos : List (String × Position) → String → Position →
    List (String × Position)
  | [], _, _ => []
  | (k, p) :: rest, s, p' =>
    if k = s then (k, p') :: rest else (k, p) :: writePos rest s p'

namespace RiskManager

/-- A fresh `RiskManager` (constructor with default limits). -/
def mkDefault : RiskManager :=
  { limits := RiskLimits.default, positions := [], dailyPnL := 0,
    peakEquity := 0, currentEquity := 0 }

/-- Model of `RiskManager::validateOrder`.  Note `auto& position =
positions_[order.getSymbol()]` default-inserts an entry once the size
and value checks have passed; the updated table is returned alongside
the verdict. -/
def validateOrder (rm : RiskManager) (order : Order) (currentPrice : ℚ) :
    ValidationResult × RiskManager :=
  if order.quantity > rm.limits.maxOrderSize then
    (.REJECTED_ORDER_SIZE, rm)
  else
    let orderPrice : ℚ :=
      if order.type = .MARKET then currentPrice else priceToRat order.price
    let orderValue : ℚ := (order.quantity : ℚ) * orderPrice
    if orderValue > rm.limits.maxOrderValue then
      (.REJECTED_ORDER_VALUE, rm)
    else
      let (position, positions) := mapIndexPos rm.positions order.symbol
      let rm := { rm with positions := positions }
      let newQuantity : Int :=
        if order.side = .BUY then position.quantity + (order.quantity : Int)
        else position.quantity - (order.quantity : Int)
      if (newQuantity.natAbs : Int) > rm.limits.maxPositionSize then
        (.REJECTED_POSITION_LIMIT, rm)
      else
        let newPositionValue : ℚ := (newQuantity.natAbs : ℚ) * orderPrice
        if newPositionValue > rm.limits.maxPositionValue then
          (.REJECTED_POSITION_VALUE, rm)
        else if rm.dailyPnL < -rm.limits.maxDailyLoss then
          (.REJECTED_DAILY_LOSS, rm)
        else if rm.peakEquity - rm.currentEquity > rm.limits.maxDrawdown then
          (.REJECTED_DRAWDOWN, rm)
        else
          (.ACCEPTED, rm)

/-- Model of `RiskManager::updatePosition`: position/PnL bookkeeping after a
trade, followed by the equity/peak update.  (The degenerate divisor
`|quantity| + tradeQty = 0` can arise only for a zero-quantity trade on
a flat position; the C++ produces NaN there, the spec calls it a
ProgrammingError, and `ℚ` division yields 0.) -/
def updatePosition (rm : RiskManager) (trade : Trade)
    (aggressorSide : Side) : RiskManager :=
  let (position, positions) := mapIndexPos rm.positions trade.symbol
  let position :=
    if position.symbol = "" then { position with symbol := trade.symbol }
    else position
  let tradePrice : ℚ := priceToRat trade.price
  let tradeQty : Nat := trade.quantity
  let isBuy : Bool := aggressorSide = .BUY
  let (position, dailyPnL) : Position × ℚ :=
    if isBuy then
      let position := { position with totalBought := position.totalBought + tradeQty }
      if position.quantity ≥ (0 : Int) then
        -- Adding to long or opening long
        let avg := ((position.quantity : ℚ) * position.averagePrice
            + (tradeQty : ℚ) * tradePrice)
          / ((position.quantity : ℚ) + (tradeQty : ℚ))
        ({ position with averagePrice := avg,
                         quantity := position.quantity + (tradeQty : Int) },
         rm.dailyPnL)
      else
        -- Covering short
        let closingQty : Int := min (tradeQty : Int) |position.quantity|
        let pnl : ℚ := (closingQty : ℚ) * (position.averagePrice - tradePrice)
        let position := { position with realizedPnL := position.realizedPnL + pnl,
                                        quantity := position.quantity + (tradeQty : Int) }
        let position :=
          if position.quantity > 0 then
            { position with averagePrice := tradePrice }
          else position
        (position, rm.dailyPnL + pnl)
    else
      let position := { position with totalSold := position.totalSold + tradeQty }
      if position.quantity ≤ (0 : Int) then
        -- Adding to short or opening short
        let avg := ((position.quantity.natAbs : ℚ) * position.averagePrice
            + (tradeQty : ℚ) * tradePrice)
          / ((position.quantity.natAbs : ℚ) + (tradeQty : ℚ))
        ({ position with averagePrice := avg,
                         quantity := position.quantity - (tradeQty : Int) },
         rm.dailyPnL)
      else
        -- Closing long
        let closingQty : Int := min (tradeQty : Int) position.quantity
        let pnl : ℚ := (closingQty : ℚ) * (tradePrice - position.averagePrice)
        let position := { position with realizedPnL := position.realizedPnL + pnl,
                                        quantity := position.quantity - (tradeQty : Int) }
        let position :=
          if position.quantity < 0 then
            { position with averagePrice := tradePrice }
          else position
        (position, rm.dailyPnL + pnl)
  let positions := writePos positions trade.symbol position
  let currentEquity : ℚ :=
    dailyPnL + (positions.map (fun kp => kp.2.unrealizedPnL)).sum
  let peakEquity :=
    if currentEquity > rm.peakEquity then currentEquity else rm.peakEquity
  { rm with positions := positions, dailyPnL := dailyPnL,
            currentEquity := currentEquity, peakEquity := peakEquity }

/-- Model of `RiskManager::getPosition` (the static empty `Position` for an
unknown symbol). -/
def getPosition (rm : RiskManager) (symbol : String) : Position :=
  (lookupPos rm.positions symbol).getD Position.default

end RiskManager

/-! ## Matching engine (engine/matching_engine.hpp)

The trade and order-update callbacks are modelled as event logs in the
engine state: an entry is appended exactly where the C++ would invoke
the corresponding callback. -/

/-- Model of `MatchingEngine::MatchingStats`. -/
structure MatchingStats where
  totalTrades : Nat
  totalVolume : Nat
  totalValue : ℚ
  marketOrdersMatched : Nat
  limitOrdersMatched : Nat
deriving DecidableEq, Repr

/-- Model of `MatchingStats` zero-initialisation (`stats_{}`). -/
def MatchingStats.init : MatchingStats :=
  { totalTrades := 0, totalVolume := 0, totalValue := 0,
    marketOrdersMatched := 0, limitOrdersMatched := 0 }

/-- Model of `MatchingEngine` state. -/
structure MatchingEngine where
  orderBook : OrderBook
  symbol : String
  nextOrderId : Nat
  stats : MatchingStats
  tradeEvents : List Trade
  orderUpdateEvents : List Order
deriving DecidableEq, Repr

namespace MatchingEngine

/-- The `MatchingEngine(symbol)` constructor. -/
def mkEngine (symbol : String) : MatchingEngine :=
  { orderBook := OrderBook.empty symbol, symbol := symbol,
    nextOrderId := 1, stats := MatchingStats.init,
    tradeEvents := [], orderUpdateEvents := [] }

/-- Model of `MatchingEngine::getBestBidOrder`: the source computes the top of
the bid depth and then returns `nullptr` unconditionally (an explicit
placeholder, "will be implemented with better access"). -/
def getBestBidOrder (e : MatchingEngine) : Option Order :=
  let bidDepth := e.orderBook.getBidDepth 1
  if bidDepth.isEmpty then none else none

/-- Model of `MatchingEngine::getBestAskOrder`: same placeholder shape as
`getBestBidOrder`, always `nullptr`. -/
def getBestAskOrder (e : MatchingEngine) : Option Order :=
  let askDepth := e.orderBook.getAskDepth 1
  if askDepth.isEmpty then none else none

/-- Shared body of one iteration of the four matching loops: emit the
trade at `tradePrice`, fill both sides (writing the resting order back
through its shared pointer), remove the resting order when its
remaining hits 0, bump the per-trade stats and log the resting order's
update callback.  `aggressorIsBuy` fixes which side of the `Trade`
record each id goes to. -/
def fillStep (e : MatchingEngine) (order resting : Order)
    (remaining : Nat) (tradePrice : Int) (aggressorIsBuy : Bool) :
    MatchingEngine × Order × Nat × Trade :=
  let fillQty := min remaining resting.remainingQuantity
  let trade : Trade :=
    if aggressorIsBuy then
      ⟨order.id, resting.id, e.symbol, tradePrice, fillQty⟩
    else
      ⟨resting.id, order.id, e.symbol, tradePrice, fillQty⟩
  let order := order.fillQuantity fillQty
  let resting := resting.fillQuantity fillQty
  let e := { e with orderBook :=
    { e.orderBook with
        orderMap := writeOrder e.orderBook.orderMap resting.id resting } }
  let remaining := remaining - fillQty
  let e :=
    if resting.remainingQuantity = 0 then
      { e with orderBook := (e.orderBook.cancelOrder resting.id).2 }
    else e
  let e := { e with stats :=
    { e.stats with totalTrades := e.stats.totalTrades + 1,
                   totalVolume := e.stats.totalVolume + fillQty,
                   totalValue := e.stats.totalValue + trade.getValue } }
  let e := { e with orderUpdateEvents := e.orderUpdateEvents ++ [resting] }
  (e, order, remaining, trade)

/-- The inner `while (remaining > 0)` loop of
`matchMarketBuyOrder` / `matchMarketSellOrder` at one depth level.
`fuel` bounds the iteration count (each productive C++ iteration
strictly decreases `remaining`); with the placeholder best-order
helpers the loop always exits at its first iteration. -/
def marketLoop (isBuy : Bool) :
    Nat → MatchingEngine → Order → Nat → Int → List Trade →
    MatchingEngine × Order × Nat × List Trade
  | 0, e, order, remaining, _, trades => (e, order, remaining, trades)
  | fuel + 1, e, order, remaining, levelPrice, trades =>
    if remaining > 0 then
      let best := if isBuy then e.orderBook.getBestAsk
                  else e.orderBook.getBestBid
      match best with
      | none => (e, order, remaining, trades)
      | some bestPrice =>
        if bestPrice ≠ levelPrice then (e, order, remaining, trades)
        else
          let restingOpt := if isBuy then getBestAskOrder e
                            else getBestBidOrder e
          match restingOpt with
          | none => (e, order, remaining, trades)
          | some resting =>
            let (e, order, remaining, trade) :=
              fillStep e order resting remaining levelPrice isBuy
            marketLoop isBuy fuel e order remaining levelPrice
              (trades ++ [trade])
    else (e, order, remaining, trades)

/-- Model of `matchMarketBuyOrder` / `matchMarketSellOrder`: walk up to 100
depth levels of the opposite side (the `break` on `remaining == 0` is
the guard inside the fold), then log the aggressor's order-update
callback. -/
def matchMarketSide (isBuy : Bool) (e : MatchingEngine) (order : Order) :
    List Trade × MatchingEngine × Order :=
  let remaining := order.remainingQuantity
  let depth := if isBuy then e.orderBook.getAskDepth 100
               else e.orderBook.getBidDepth 100
  let (e, order, _, trades) :=
    depth.foldl
      (fun (acc : MatchingEngine × Order × Nat × List Trade) level =>
        let (e, order, remaining, trades) := acc
        if remaining = 0 then acc
        else marketLoop isBuy (remaining + 1) e order remaining
          level.price trades)
      (e, order, remaining, [])
  let e := { e with orderUpdateEvents := e.orderUpdateEvents ++ [order] }
  (trades, e, order)

/-- Model of `MatchingEngine::matchMarketOrder`: dispatch on side, then bump
`marketOrdersMatched`. -/
def matchMarketOrder (e : MatchingEngine) (order : Order) :
    List Trade × MatchingEngine × Order :=
  let (trades, e, order) := matchMarketSide (order.side = .BUY) e order
  let e := { e with stats :=
    { e.stats with marketOrdersMatched := e.stats.marketOrdersMatched + 1 } }
  (trades, e, order)

/-- The `while (remaining > 0)` loop of `matchLimitBuyOrder` /
`matchLimitSellOrder`: match while the opposite top-of-book satisfies
the limit, trading at the resting side's price.  `fuel` as in
`marketLoop`. -/
def limitLoop (isBuy : Bool) :
    Nat → MatchingEngine → Order → Nat → Int → List Trade →
    MatchingEngine × Order × Nat × List Trade
  | 0, e, order, remaining, _, trades => (e, order, remaining, trades)
  | fuel + 1, e, order, remaining, limitPrice, trades =>
    if remaining > 0 then
      let best := if isBuy then e.orderBook.getBestAsk
                  else e.orderBook.getBestBid
      match best with
      | none => (e, order, remaining, trades)
      | some bestPrice =>
        if (if isBuy then bestPrice > limitPrice else bestPrice < limitPrice)
        then (e, order, remaining, trades)
        else
          let restingOpt := if isBuy then getBestAskOrder e
                            else getBestBidOrder e
          match restingOpt with
          | none => (e, order, remaining, trades)
          | some resting =>
            let (e, order, remaining, trade) :=
              fillStep e order resting remaining bestPrice isBuy
            limitLoop isBuy fuel e order remaining limitPrice
              (trades ++ [trade])
    else (e, order, remaining, trades)

/-- Model of `matchLimitBuyOrder` / `matchLimitSellOrder`: run the matching
loop, then log the aggressor's order-update callback. -/
def matchLimitSide (isBuy : Bool) (e : MatchingEngine) (order : Order) :
    List Trade × MatchingEngine × Order :=
  let remaining := order.remainingQuantity
  let limitPrice := order.price
  let (e, order, _, trades) :=
    limitLoop isBuy (remaining + 1) e order remaining limitPrice []
  let e := { e with orderUpdateEvents := e.orderUpdateEvents ++ [order] }
  (trades, e, order)

/-- Model of `MatchingEngine::matchLimitOrder`: dispatch on side, rest any
positive residual in the book, bump `limitOrdersMatched`. -/
def matchLimitOrder (e : MatchingEngine) (order : Order) :
    List Trade × MatchingEngine × Order :=
  let (trades, e, order) := matchLimitSide (order.side = .BUY) e order
  let e :=
    if order.remainingQuantity > 0 then
      { e with orderBook := (e.orderBook.addOrder order).2 }
    else e
  let e := { e with stats :=
    { e.stats with limitOrdersMatched := e.stats.limitOrdersMatched + 1 } }
  (trades, e, order)

/-- Model of `MatchingEngine::submitOrder`: reject a symbol mismatch with an
empty trade list; otherwise dispatch on `order.type` (only MARKET and
LIMIT are handled) and fire the trade callbacks in emission order. -/
def submitOrder (e : MatchingEngine) (order : Order) :
    List Trade × MatchingEngine × Order :=
  if order.symbol ≠ e.symbol then ([], e, order)
  else
    let (trades, e, order) :=
      if order.type = .MARKET then matchMarketOrder e order
      else if order.type = .LIMIT then matchLimitOrder e order
      else ([], e, order)
    let e := { e with tradeEvents := e.tradeEvents ++ trades }
    (trades, e, order)

/-- Model of `MatchingEngine::cancelOrder`. -/
def cancelOrder (e : MatchingEngine) (oid : Nat) :
    Bool × MatchingEngine :=
  let (ok, book) := e.orderBook.cancelOrder oid
  (ok, { e with orderBook := book })

/-- Model of `MatchingEngine::modifyOrder`. -/
def modifyOrder (e : MatchingEngine) (oid : Nat) (newPrice : Int)
    (newQuantity : Nat) : Bool × MatchingEngine :=
  let (ok, book) := e.orderBook.modifyOrder oid newPrice newQuantity
  (ok, { e with orderBook := book })

end MatchingEngine

/-! ## Engine lemmas

The best-order helpers are placeholders returning `nullptr`, so every
matching loop exits on its first iteration; these lemmas record the
resulting behaviour of the match functions. -/

namespace MatchingEngine

theorem getBestBidOrder_eq_none (e : MatchingEngine) :
    getBestBidOrder e = none := by
  simp [getBestBidOrder]

theorem getBestAskOrder_eq_none (e : MatchingEngine) :
    getBestAskOrder e = none := by
  simp [getBestAskOrder]

theorem limitLoop_eq (isBuy : Bool) (fuel : Nat) (e : MatchingEngine)
    (order : Order) (remaining : Nat) (limitPrice : Int)
    (trades : List Trade) :
    limitLoop isBuy fuel e order remaining limitPrice trades =
      (e, order, remaining, trades) := by
  cases fuel with
  | zero => rfl
  | succ n =>
    simp only [limitLoop, getBestAskOrder_eq_none, getBestBidOrder_eq_none,
      ite_self]
    split
    · split
      · rfl
      · rfl
    · rfl

theorem marketLoop_eq (isBuy : Bool) (fuel : Nat) (e : MatchingEngine)
    (order : Order) (remaining : Nat) (levelPrice : Int)
    (trades : List Trade) :
    marketLoop isBuy fuel e order remaining levelPrice trades =
      (e, order, remaining, trades) := by
  cases fuel with
  | zero => rfl
  | succ n =>
    simp only [marketLoop, getBestAskOrder_eq_none, getBestBidOrder_eq_none,
      ite_self]
    split
    · split
      · rfl
      · rfl
    · rfl

theorem marketSideFold_eq (isBuy : Bool) (depth : List DepthLevel)
    (acc : MatchingEngine × Order × Nat × List Trade) :
    depth.foldl
      (fun (acc : MatchingEngine × Order × Nat × List Trade) level =>
        let (e, order, remaining, trades) := acc
        if remaining = 0 then acc
        else marketLoop isBuy (remaining + 1) e order remaining
          level.price trades)
      acc = acc := by
  apply List.foldl_fixed'
  intro level
  obtain ⟨e, order, remaining, trades⟩ := acc
  by_cases h : remaining = 0
  · simp [h]
  · simp [h, marketLoop_eq]

theorem matchMarketSide_eq (isBuy : Bool) (e : MatchingEngine)
    (order : Order) :
    matchMarketSide isBuy e order =
      ([], { e with orderUpdateEvents := e.orderUpdateEvents ++ [order] },
        order) := by
  simp [matchMarketSide, marketSideFold_eq]

theorem matchLimitSide_eq (isBuy : Bool) (e : MatchingEngine)
    (order : Order) :
    matchLimitSide isBuy e order =
      ([], { e with orderUpdateEvents := e.orderUpdateEvents ++ [order] },
        order) := by
  simp [matchLimitSide, limitLoop_eq]

/-- A market order leaves the order book untouched (the match loops
never reach a resting order). -/
theorem matchMarketOrder_book (e : MatchingEngine) (order : Order) :
    (matchMarketOrder e order).2.1.orderBook = e.orderBook ∧
    (matchMarketOrder e order).1 = [] := by
  simp [matchMarketOrder, matchMarketSide_eq]

/-- For a MARKET-type order, `submitOrder` never touches the book. -/
theorem submitOrder_market_book (e : MatchingEngine) (order : Order)
    (h : order.type = .MARKET) :
    ((submitOrder e order).2.1).orderBook = e.orderBook := by
  by_cases hs : order.symbol = e.symbol
  · simp [submitOrder, hs, h, matchMarketOrder, matchMarketSide_eq]
  · simp [submitOrder, hs]

end MatchingEngine

/-! ## Claim theorems -/

/-- C8: for every order whose symbol differs from the engine's
configured symbol, `submitOrder` returns the empty trade list and
leaves the order book, the matching statistics, the event logs and the
submitted order itself unchanged (the whole engine state and the order
come back exactly as they went in, and no callback entry is logged). -/
theorem submitOrder_symbol_mismatch (e : MatchingEngine) (order : Order)
    (h : order.symbol ≠ e.symbol) :
    MatchingEngine.submitOrder e order = ([], e, order) := by
  simp [MatchingEngine.submitOrder, h]

theorem submitOrder_symbol_mismatch_witness :
    (Order.mkLimit 1 "MSFT" .BUY .LIMIT 100 10).symbol ≠
        (MatchingEngine.mkEngine "AAPL").symbol ∧
      MatchingEngine.submitOrder (MatchingEngine.mkEngine "AAPL")
          (Order.mkLimit 1 "MSFT" .BUY .LIMIT 100 10) =
        ([], MatchingEngine.mkEngine "AAPL",
          Order.mkLimit 1 "MSFT" .BUY .LIMIT 100 10) :=
  ⟨by decide,
   submitOrder_symbol_mismatch (MatchingEngine.mkEngine "AAPL")
     (Order.mkLimit 1 "MSFT" .BUY .LIMIT 100 10) (by decide)⟩

/-- C10: for every order of the reserved types STOP or STOP_LIMIT,
`submitOrder` returns the empty trade list, performs no matching, and
leaves the engine (book, statistics, event logs) and the order exactly
unchanged: the dispatch handles only MARKET and LIMIT. -/
theorem submitOrder_stop_noop (e : MatchingEngine) (order : Order)
    (h : order.type = .STOP ∨ order.type = .STOP_LIMIT) :
    MatchingEngine.submitOrder e order = ([], e, order) := by
  by_cases hs : order.symbol = e.symbol <;>
    rcases h with h | h <;> simp [MatchingEngine.submitOrder, hs, h]

theorem submitOrder_stop_noop_witness :
    ((Order.mkLimit 3 "AAPL" .BUY .STOP 15000 10).type = .STOP ∨
      (Order.mkLimit 3 "AAPL" .BUY .STOP 15000 10).type = .STOP_LIMIT) ∧
    MatchingEngine.submitOrder (MatchingEngine.mkEngine "AAPL")
        (Order.mkLimit 3 "AAPL" .BUY .STOP 15000 10) =
      ([], MatchingEngine.mkEngine "AAPL",
        Order.mkLimit 3 "AAPL" .BUY .STOP 15000 10) :=
  ⟨Or.inl (by decide),
   submitOrder_stop_noop (MatchingEngine.mkEngine "AAPL")
     (Order.mkLimit 3 "AAPL" .BUY .STOP 15000 10) (Or.inl (by decide))⟩

/-- C9: a MARKET order is never inserted into the book: if the book
contains no order with the aggressor's id before `submitOrder` (not in
the id-index and in no price level of either side), it contains none
afterwards — the unfilled residual is discarded, not rested. -/
theorem submitOrder_market_never_rests (e : MatchingEngine) (order : Order)
    (h : order.type = .MARKET)
    (hidx : lookupOrder e.orderBook.orderMap order.id = none)
    (hbid : ∀ l ∈ e.orderBook.bids, order.id ∉ l.orderIds)
    (hask : ∀ l ∈ e.orderBook.asks, order.id ∉ l.orderIds) :
    lookupOrder ((MatchingEngine.submitOrder e order).2.1).orderBook.orderMap
        order.id = none ∧
      (∀ l ∈ ((MatchingEngine.submitOrder e order).2.1).orderBook.bids,
        order.id ∉ l.orderIds) ∧
      (∀ l ∈ ((MatchingEngine.submitOrder e order).2.1).orderBook.asks,
        order.id ∉ l.orderIds) := by
  rw [MatchingEngine.submitOrder_market_book e order h]
  exact ⟨hidx, hbid, hask⟩

theorem submitOrder_market_never_rests_witness :
    (Order.mkMarket 7 "AAPL" .BUY 50).type = .MARKET ∧
    lookupOrder
        ((MatchingEngine.submitOrder (MatchingEngine.mkEngine "AAPL")
          (Order.mkMarket 7 "AAPL" .BUY 50)).2.1).orderBook.orderMap
        (Order.mkMarket 7 "AAPL" .BUY 50).id = none :=
  ⟨by decide,
   (submitOrder_market_never_rests (MatchingEngine.mkEngine "AAPL")
     (Order.mkMarket 7 "AAPL" .BUY 50) (by decide) (by decide)
     (by intro l hl; cases hl) (by intro l hl; cases hl)).1⟩

/-- The "simple cross" scenario of the spec: SELL LIMIT 150.00×100
(id 1), then BUY LIMIT 150.00×100 (id 2), on a fresh engine for
"AAPL".  Shared by the evaluations of the book/matching claims. -/
def crossSubmit2 : List Trade × MatchingEngine × Order :=
  (((MatchingEngine.mkEngine "AAPL").submitOrder
      (Order.mkLimit 1 "AAPL" .SELL .LIMIT 15000 100)).2.1).submitOrder
    (Order.mkLimit 2 "AAPL" .BUY .LIMIT 15000 100)

/-- C1 (code behaviour at the spec's "simple cross" input): the second
`submitOrder` returns NO trade — the placeholder `getBestAskOrder`
aborts the match loop — and both book sides end non-empty, contradicting
the claimed single trade buy=2/sell=1 at 15000×100 with an empty book. -/
theorem simple_cross_produces_no_trade :
    crossSubmit2.1 = [] ∧
      crossSubmit2.2.1.orderBook.bids ≠ [] ∧
      crossSubmit2.2.1.orderBook.asks ≠ [] := by
  decide

/-- C2 (code behaviour): after the same two submissions both sides of
the book are non-empty with best bid = best ask = 15000, so the
non-crossed-book invariant `bestBid < bestAsk` fails at rest. -/
theorem simple_cross_book_crossed :
    crossSubmit2.2.1.orderBook.getBestBid = some 15000 ∧
      crossSubmit2.2.1.orderBook.getBestAsk = some 15000 := by
  decide

/-- The cancel scenario breaking the level-quantity invariant: two
resting SELL LIMIT 100.00×10 orders (ids 1 and 2) at the same price,
then `cancelOrder 1`. -/
def cancelScenarioBook : OrderBook :=
  ((((OrderBook.empty "AAPL").addOrder
      (Order.mkLimit 1 "AAPL" .SELL .LIMIT 10000 10)).2.addOrder
      (Order.mkLimit 2 "AAPL" .SELL .LIMIT 10000 10)).2.cancelOrder 1).2

/-- C3 (code behaviour at the failing input): after cancelling order 1,
the surviving ask level caches `totalQuantity = 20` while the remaining
quantities of its queued orders sum to 10 — `Order::cancel` zeroes the
remaining quantity before `PriceLevel::removeOrder` subtracts it, so
the cached total never drops. -/
theorem cancel_breaks_level_quantity :
    cancelScenarioBook.asks.head?.map PriceLevel.totalQuantity = some 20 ∧
      cancelScenarioBook.asks.head?.map
        (fun l => cancelScenarioBook.levelRemainingSum l) = some 10 := by
  decide

/-! ## Position-table lemmas -/

theorem lookupPos_append_some (ps qs : List (String × Position)) (s : String)
    (v : Position) (h : lookupPos ps s = some v) :
    lookupPos (ps ++ qs) s = some v := by
  induction ps with
  | nil => simp [lookupPos] at h
  | cons kp rest ih =>
    obtain ⟨k, p⟩ := kp
    by_cases hk : k = s
    · simp_all [lookupPos]
    · simp only [List.cons_append, lookupPos, hk, if_false] at h ⊢
      exact ih h

theorem lookupPos_append_none (ps qs : List (String × Position)) (s : String)
    (h : lookupPos ps s = none) :
    lookupPos (ps ++ qs) s = lookupPos qs s := by
  induction ps with
  | nil => simp
  | cons kp rest ih =>
    obtain ⟨k, p⟩ := kp
    by_cases hk : k = s
    · simp [lookupPos, hk] at h
    · simp only [lookupPos, hk, if_false] at h
      simp only [List.cons_append, lookupPos, hk, if_false]
      exact ih h

theorem mapIndexPos_fst (ps : List (String × Position)) (s : String) :
    (mapIndexPos ps s).1 = (lookupPos ps s).getD Position.default := by
  cases h : lookupPos ps s <;> simp [mapIndexPos, h]

/-- Model of `operator[]` leaves the table unchanged or appends a fresh default
entry for a previously absent key. -/
theorem mapIndexPos_snd_cases (ps : List (String × Position)) (s : String) :
    (mapIndexPos ps s).2 = ps ∨
      (lookupPos ps s = none ∧
        (mapIndexPos ps s).2 = ps ++ [(s, Position.default)]) := by
  cases h : lookupPos ps s with
  | none => exact Or.inr ⟨rfl, by simp [mapIndexPos, h]⟩
  | some v => exact Or.inl (by simp [mapIndexPos, h])

theorem lookupPos_mapIndexPos_pres (ps : List (String × Position))
    (s s' : String) (v : Position) (h : lookupPos ps s' = some v) :
    lookupPos (mapIndexPos ps s).2 s' = some v := by
  rcases mapIndexPos_snd_cases ps s with h2 | ⟨-, h2⟩ <;>
    rw [h2]
  · exact h
  · exact lookupPos_append_some _ _ _ _ h

theorem lookupPos_mapIndexPos_self (ps : List (String × Position))
    (s : String) :
    lookupPos (mapIndexPos ps s).2 s = some (mapIndexPos ps s).1 := by
  cases h : lookupPos ps s with
  | none =>
    simp only [mapIndexPos, h]
    rw [lookupPos_append_none _ _ _ h]
    simp [lookupPos]
  | some v => simp [mapIndexPos, h]

theorem lookupPos_writePos_self (ps : List (String × Position)) (s : String)
    (v v0 : Position) (h : lookupPos ps s = some v0) :
    lookupPos (writePos ps s v) s = some v := by
  induction ps with
  | nil => simp [lookupPos] at h
  | cons kp rest ih =>
    obtain ⟨k, p⟩ := kp
    by_cases hk : k = s
    · simp [lookupPos, writePos, hk]
    · simp only [lookupPos, hk, if_false] at h
      simp only [writePos, hk, if_false, lookupPos]
      exact ih h

/-! ## C5: validation cascade -/

/-- The effective price of the spec's value checks: the reference
price for MARKET orders, the order's own (display) price otherwise. -/
def effectivePrice (order : Order) (referencePrice : ℚ) : ℚ :=
  if order.type = .MARKET then referencePrice else priceToRat order.price

/-- The validation cascade as the spec states it (§4.4): the six
checks in order — order size, order value, prospective position size,
prospective position value, daily loss, drawdown — first failing check
wins, with `effectivePrice` in both value checks and the current signed
position read from the ledger (0 when the symbol has no entry).
This is the spec-side definition to be compared with the source-derived
`RiskManager.validateOrder`. -/
def validateOrderSpec (rm : RiskManager) (order : Order)
    (referencePrice : ℚ) : ValidationResult :=
  let ep := effectivePrice order referencePrice
  let currentPos :=
    ((lookupPos rm.positions order.symbol).getD Position.default).quantity
  let prospective : Int :=
    if order.side = .BUY then currentPos + (order.quantity : Int)
    else currentPos - (order.quantity : Int)
  if order.quantity > rm.limits.maxOrderSize then .REJECTED_ORDER_SIZE
  else if (order.quantity : ℚ) * ep > rm.limits.maxOrderValue then
    .REJECTED_ORDER_VALUE
  else if (prospective.natAbs : Int) > rm.limits.maxPositionSize then
    .REJECTED_POSITION_LIMIT
  else if (prospective.natAbs : ℚ) * ep > rm.limits.maxPositionValue then
    .REJECTED_POSITION_VALUE
  else if rm.dailyPnL < -rm.limits.maxDailyLoss then .REJECTED_DAILY_LOSS
  else if rm.peakEquity - rm.currentEquity > rm.limits.maxDrawdown then
    .REJECTED_DRAWDOWN
  else .ACCEPTED

/-- C5: `validateOrder` returns exactly the spec's first-failing-check
verdict (checks in the order: size, value, position size, position
value, daily loss, drawdown, with the reference price as effective
price for MARKET orders and the order's own price otherwise); in
particular any order with quantity > maxOrderSize is rejected with
REJECTED_ORDER_SIZE regardless of every other limit. -/
theorem validateOrder_first_failing_check (rm : RiskManager) (order : Order)
    (p : ℚ) :
    (RiskManager.validateOrder rm order p).1 = validateOrderSpec rm order p ∧
      (order.quantity > rm.limits.maxOrderSize →
        (RiskManager.validateOrder rm order p).1 = .REJECTED_ORDER_SIZE) := by
  constructor
  · cases h : lookupPos rm.positions order.symbol with
    | none =>
      simp only [RiskManager.validateOrder, validateOrderSpec,
        effectivePrice, mapIndexPos, h, Option.getD,
        apply_ite (@Prod.fst ValidationResult RiskManager)]
    | some v =>
      simp only [RiskManager.validateOrder, validateOrderSpec,
        effectivePrice, mapIndexPos, h, Option.getD,
        apply_ite (@Prod.fst ValidationResult RiskManager)]
  · intro h
    simp [RiskManager.validateOrder, h]

theorem validateOrder_first_failing_check_witness :
    (RiskManager.validateOrder RiskManager.mkDefault
        (Order.mkLimit 9 "AAPL" .BUY .LIMIT 100 20000) 0).1 =
      validateOrderSpec RiskManager.mkDefault
        (Order.mkLimit 9 "AAPL" .BUY .LIMIT 100 20000) 0 ∧
    (RiskManager.validateOrder RiskManager.mkDefault
        (Order.mkLimit 9 "AAPL" .BUY .LIMIT 100 20000) 0).1 =
      .REJECTED_ORDER_SIZE :=
  ⟨(validateOrder_first_failing_check RiskManager.mkDefault
      (Order.mkLimit 9 "AAPL" .BUY .LIMIT 100 20000) 0).1,
   (validateOrder_first_failing_check RiskManager.mkDefault
      (Order.mkLimit 9 "AAPL" .BUY .LIMIT 100 20000) 0).2 (by decide)⟩

/-! ## C4: validator frame -/

/-- C4 counterexample: `validateOrder` is NOT pure with respect to the
position table — validating a small order for a symbol with no entry
default-inserts that symbol (the `positions_[...]` `operator[]`), so
the table differs afterwards. -/
theorem validateOrder_not_pure :
    ((RiskManager.mkDefault).validateOrder
        (Order.mkLimit 1 "AAPL" .BUY .LIMIT 10000 10) 0).2.positions ≠
      (RiskManager.mkDefault).positions := by
  have hLM : (OrderType.LIMIT = OrderType.MARKET) = False := by simp
  norm_num [RiskManager.validateOrder, RiskManager.mkDefault,
    RiskLimits.default, mapIndexPos, lookupPos, Position.default,
    priceToRat, Order.mkLimit, hLM]

/-- C4 (amended): `validateOrder` leaves dailyPnL, peakEquity,
currentEquity and the limits unchanged, preserves every existing
position entry, and the only possible change to the position table is
appending a default (zeroed) entry for the order's symbol when that
symbol had none. -/
theorem validateOrder_frame (rm : RiskManager) (order : Order) (p : ℚ) :
    (RiskManager.validateOrder rm order p).2.limits = rm.limits ∧
    (RiskManager.validateOrder rm order p).2.dailyPnL = rm.dailyPnL ∧
    (RiskManager.validateOrder rm order p).2.peakEquity = rm.peakEquity ∧
    (RiskManager.validateOrder rm order p).2.currentEquity =
      rm.currentEquity ∧
    (∀ s v, lookupPos rm.positions s = some v →
      lookupPos (RiskManager.validateOrder rm order p).2.positions s =
        some v) ∧
    ((RiskManager.validateOrder rm order p).2.positions = rm.positions ∨
      (lookupPos rm.positions order.symbol = none ∧
        (RiskManager.validateOrder rm order p).2.positions =
          rm.positions ++ [(order.symbol, Position.default)])) := by
  have hpos : (RiskManager.validateOrder rm order p).2.positions =
      rm.positions ∨
      (RiskManager.validateOrder rm order p).2.positions =
        (mapIndexPos rm.positions order.symbol).2 := by
    simp only [RiskManager.validateOrder]
    split_ifs <;> simp
  have hscalars : (RiskManager.validateOrder rm order p).2.limits =
      rm.limits ∧
      (RiskManager.validateOrder rm order p).2.dailyPnL = rm.dailyPnL ∧
      (RiskManager.validateOrder rm order p).2.peakEquity =
        rm.peakEquity ∧
      (RiskManager.validateOrder rm order p).2.currentEquity =
        rm.currentEquity := by
    simp only [RiskManager.validateOrder]
    split_ifs <;> simp
  refine ⟨hscalars.1, hscalars.2.1, hscalars.2.2.1, hscalars.2.2.2, ?_, ?_⟩
  · intro s v hv
    rcases hpos with h | h <;> rw [h]
    · exact hv
    · exact lookupPos_mapIndexPos_pres _ _ _ _ hv
  · rcases hpos with h | h
    · exact Or.inl h
    · rcases mapIndexPos_snd_cases rm.positions order.symbol with h2 |
        ⟨hn, h2⟩
      · exact Or.inl (h.trans h2)
      · exact Or.inr ⟨hn, h.trans h2⟩

/-! ## C7: cancelOrder contract -/

theorem lookupOrder_not_mem (m : List (Nat × Order)) (oid : Nat)
    (h : oid ∉ m.map Prod.fst) : lookupOrder m oid = none := by
  induction m with
  | nil => rfl
  | cons kp rest ih =>
    obtain ⟨k, o⟩ := kp
    simp only [List.map_cons, List.mem_cons] at h
    push_neg at h
    simp only [lookupOrder, Ne.symm h.1, if_false]
    exact ih h.2

theorem lookupOrder_eraseOrder_self (m : List (Nat × Order)) (oid : Nat)
    (h : (m.map Prod.fst).Nodup) :
    lookupOrder (eraseOrder m oid) oid = none := by
  induction m with
  | nil => rfl
  | cons kp rest ih =>
    obtain ⟨k, o⟩ := kp
    simp only [List.map_cons, List.nodup_cons] at h
    by_cases hk : k = oid
    · simp only [eraseOrder, hk, if_true]
      exact lookupOrder_not_mem _ _ (hk ▸ h.1)
    · simp only [eraseOrder, hk, if_false, lookupOrder]
      exact ih h.2

theorem removeFirstId_not_mem (xs : List Nat) (oid : Nat)
    (h : xs.Nodup) : oid ∉ removeFirstId xs oid := by
  induction xs with
  | nil => simp [removeFirstId]
  | cons x rest ih =>
    simp only [List.nodup_cons] at h
    by_cases hx : x = oid
    · simp only [removeFirstId, hx, if_true]
      exact hx ▸ h.1
    · simp only [removeFirstId, hx, if_false, List.mem_cons]
      push_neg
      exact ⟨fun he => hx he.symm, ih h.2⟩

theorem removeFromLevels_spec (levels : List PriceLevel) (price : Int)
    (oid rem : Nat) (hpr : (levels.map PriceLevel.price).Nodup)
    (hids : ∀ l ∈ levels, l.orderIds.Nodup) :
    ∀ l ∈ removeFromLevels levels price oid rem, l.price = price →
      oid ∉ l.orderIds := by
  induction levels with
  | nil => intro l hl; cases hl
  | cons hd tl ih =>
    simp only [List.map_cons, List.nodup_cons] at hpr
    intro l hl hlp
    by_cases hh : hd.price = price
    · simp only [removeFromLevels, hh, if_true] at hl
      by_cases he : ((hd.removeOrder oid rem).2).orderIds.isEmpty
      · rw [if_pos he] at hl
        exact absurd (List.mem_map_of_mem PriceLevel.price hl)
          (by rw [hlp, ← hh]; exact hpr.1)
      · rw [if_neg he] at hl
        rcases List.mem_cons.mp hl with rfl | hl2
        · have hnd : hd.orderIds.Nodup := hids hd (List.mem_cons_self hd tl)
          by_cases hm : oid ∈ hd.orderIds
          · simpa [PriceLevel.removeOrder, hm] using
              removeFirstId_not_mem hd.orderIds oid hnd
          · simp [PriceLevel.removeOrder, hm]
        · exact absurd (List.mem_map_of_mem PriceLevel.price hl2)
            (by rw [hlp, ← hh]; exact hpr.1)
    · simp only [removeFromLevels, hh, if_false] at hl
      rcases List.mem_cons.mp hl with rfl | hl2
      · exact absurd hlp hh
      · exact ih hpr.2 (fun l2 h2 => hids l2 (List.mem_cons_of_mem hd h2))
          l hl2 hlp

/-- C7: cancelling an id not in the id-index returns false and leaves
the book (and hence every resting order) unchanged; cancelling a
present id returns true, mutates that order through `Order::cancel`
(status CANCELLED, remaining 0 — applied before the level removal, so
the level subtraction sees remaining 0) and removes the id from the
id-index and from its price level on its side.  The `Nodup` hypotheses
state what the C++ containers guarantee structurally: `std::map` keys
are unique per side and each id occurs at most once in the index and in
a level's queue. -/
theorem cancelOrder_contract (b : OrderBook) (oid : Nat) :
    (lookupOrder b.orderMap oid = none →
      b.cancelOrder oid = (false, b)) ∧
    (∀ o, lookupOrder b.orderMap oid = some o →
      (b.orderMap.map Prod.fst).Nodup →
      (b.bids.map PriceLevel.price).Nodup →
      (b.asks.map PriceLevel.price).Nodup →
      (∀ l ∈ b.bids, l.orderIds.Nodup) →
      (∀ l ∈ b.asks, l.orderIds.Nodup) →
      (b.cancelOrder oid).1 = true ∧
      o.cancel.status = .CANCELLED ∧
      o.cancel.remainingQuantity = 0 ∧
      lookupOrder (b.cancelOrder oid).2.orderMap oid = none ∧
      (∀ l ∈ (if o.side = .BUY then (b.cancelOrder oid).2.bids
              else (b.cancelOrder oid).2.asks),
        l.price = o.price → oid ∉ l.orderIds)) := by
  constructor
  · intro h
    simp [OrderBook.cancelOrder, h]
  · intro o h hkeys hbp hap hbi hai
    refine ⟨by simp [OrderBook.cancelOrder, h], rfl, rfl, ?_, ?_⟩
    · have hmap : (b.cancelOrder oid).2.orderMap =
          eraseOrder b.orderMap oid := by
        cases ho : o.side <;> simp [OrderBook.cancelOrder, h, ho]
      rw [hmap]
      exact lookupOrder_eraseOrder_self _ _ hkeys
    · cases ho : o.side with
      | BUY =>
        have hbids : (b.cancelOrder oid).2.bids =
            removeFromLevels b.bids o.price oid
              o.cancel.remainingQuantity := by
          simp [OrderBook.cancelOrder, h, ho]
        rw [if_pos rfl, hbids]
        exact removeFromLevels_spec _ _ _ _ hbp hbi
      | SELL =>
        have hasks : (b.cancelOrder oid).2.asks =
            removeFromLevels b.asks o.price oid
              o.cancel.remainingQuantity := by
          simp [OrderBook.cancelOrder, h, ho]
        rw [if_neg (by simp [ho]), hasks]
        exact removeFromLevels_spec _ _ _ _ hap hai

theorem cancelOrder_contract_witness :
    ((((OrderBook.empty "AAPL").addOrder
        (Order.mkLimit 5 "AAPL" .BUY .LIMIT 9900 7)).2).cancelOrder 5).1 =
      true ∧
    lookupOrder ((((OrderBook.empty "AAPL").addOrder
        (Order.mkLimit 5 "AAPL" .BUY .LIMIT 9900 7)).2).cancelOrder
          5).2.orderMap 5 = none := by
  have h := (cancelOrder_contract
    (((OrderBook.empty "AAPL").addOrder
      (Order.mkLimit 5 "AAPL" .BUY .LIMIT 9900 7)).2) 5).2
    (Order.mkLimit 5 "AAPL" .BUY .LIMIT 9900 7)
    (by decide) (by decide) (by decide) (by decide) (by decide) (by decide)
  exact ⟨h.1, h.2.2.2.1⟩

/-! ## C6: PnL round trip -/

/-- A BUY trade of quantity `q > 0` against a flat position opens a
long of `q` at the trade price, leaves realized PnL untouched, and
does not move `dailyPnL`. -/
theorem updatePosition_buy_flat (rm : RiskManager) (b s : Nat)
    (sym : String) (p : Int) (q : Nat) (hq : 0 < q)
    (hflat : (rm.getPosition sym).quantity = 0) :
    ((rm.updatePosition ⟨b, s, sym, p, q⟩ .BUY).getPosition sym).quantity =
      (q : Int) ∧
    ((rm.updatePosition ⟨b, s, sym, p, q⟩ .BUY).getPosition
        sym).averagePrice = priceToRat p ∧
    ((rm.updatePosition ⟨b, s, sym, p, q⟩ .BUY).getPosition
        sym).realizedPnL = (rm.getPosition sym).realizedPnL ∧
    (rm.updatePosition ⟨b, s, sym, p, q⟩ .BUY).dailyPnL = rm.dailyPnL := by
  have hq' : (q : ℚ) ≠ 0 := Nat.cast_ne_zero.mpr hq.ne'
  cases h : lookupPos rm.positions sym with
  | none =>
    have hbase : lookupPos (rm.positions ++ [(sym, Position.default)]) sym =
        some Position.default := by
      rw [lookupPos_append_none _ _ _ h]; simp [lookupPos]
    refine ⟨?_, ?_, ?_, ?_⟩ <;>
      simp only [RiskManager.getPosition, RiskManager.updatePosition,
        mapIndexPos, h] <;>
      (try rw [lookupPos_writePos_self _ _ _ _ hbase]) <;>
      simp [Position.default, mul_div_cancel_left₀ (priceToRat p) hq']
  | some pos0 =>
    have hq0 : pos0.quantity = 0 := by
      simpa [RiskManager.getPosition, h] using hflat
    refine ⟨?_, ?_, ?_, ?_⟩ <;>
      simp only [RiskManager.getPosition, RiskManager.updatePosition,
        mapIndexPos, h] <;>
      (try rw [lookupPos_writePos_self _ _ _ _ h]) <;>
      by_cases hs0 : pos0.symbol = "" <;>
      simp [hs0, hq0, mul_div_cancel_left₀ (priceToRat p) hq']

/-- A SELL trade whose quantity `q > 0` exactly equals the current long
closes it: the position ends flat and realized PnL and dailyPnL both
grow by `q × (price − averagePrice)`. -/
theorem updatePosition_sell_close (rm : RiskManager) (b s : Nat)
    (sym : String) (p : Int) (q : Nat) (hq : 0 < q)
    (hqty : (rm.getPosition sym).quantity = (q : Int)) :
    ((rm.updatePosition ⟨b, s, sym, p, q⟩ .SELL).getPosition sym).quantity =
      0 ∧
    ((rm.updatePosition ⟨b, s, sym, p, q⟩ .SELL).getPosition
        sym).realizedPnL = (rm.getPosition sym).realizedPnL +
      (q : ℚ) * (priceToRat p - (rm.getPosition sym).averagePrice) ∧
    (rm.updatePosition ⟨b, s, sym, p, q⟩ .SELL).dailyPnL = rm.dailyPnL +
      (q : ℚ) * (priceToRat p - (rm.getPosition sym).averagePrice) := by
  cases h : lookupPos rm.positions sym with
  | none =>
    exfalso
    rw [RiskManager.getPosition, h] at hqty
    simp [Position.default] at hqty
    omega
  | some pos1 =>
    have hgp : rm.getPosition sym = pos1 := by
      simp [RiskManager.getPosition, h]
    rw [hgp] at hqty
    have hqpos : ¬ pos1.quantity ≤ (0 : Int) := by
      rw [hqty]; exact not_le.mpr (by exact_mod_cast hq)
    rw [hgp]
    refine ⟨?_, ?_, ?_⟩ <;>
      simp only [RiskManager.getPosition, RiskManager.updatePosition,
        mapIndexPos, h] <;>
      try rw [lookupPos_writePos_self _ _ _ _ h]
    all_goals
      by_cases hs0 : pos1.symbol = "" <;>
      simp [hs0, hqpos, hqty, hq.ne']

/-- C6: starting flat in a symbol, BUY `q` at `p1` and then SELL `q`
at `p2` (both applied through `updatePosition`, `q > 0`) ends with
position quantity 0 and increases both the position\'s realized PnL and
the manager\'s dailyPnL by exactly `q × (p2 − p1)` in display units. -/
theorem pnl_round_trip (rm : RiskManager) (sym : String) (p1 p2 : Int)
    (q b1 s1 b2 s2 : Nat) (hq : 0 < q)
    (hflat : (rm.getPosition sym).quantity = 0) :
    (((rm.updatePosition ⟨b1, s1, sym, p1, q⟩ .BUY).updatePosition
        ⟨b2, s2, sym, p2, q⟩ .SELL).getPosition sym).quantity = 0 ∧
    (((rm.updatePosition ⟨b1, s1, sym, p1, q⟩ .BUY).updatePosition
        ⟨b2, s2, sym, p2, q⟩ .SELL).getPosition sym).realizedPnL =
      (rm.getPosition sym).realizedPnL +
        (q : ℚ) * (priceToRat p2 - priceToRat p1) ∧
    ((rm.updatePosition ⟨b1, s1, sym, p1, q⟩ .BUY).updatePosition
        ⟨b2, s2, sym, p2, q⟩ .SELL).dailyPnL =
      rm.dailyPnL + (q : ℚ) * (priceToRat p2 - priceToRat p1) := by
  obtain ⟨hq1, havg1, hr1, hd1⟩ :=
    updatePosition_buy_flat rm b1 s1 sym p1 q hq hflat
  obtain ⟨hq2, hr2, hd2⟩ :=
    updatePosition_sell_close (rm.updatePosition ⟨b1, s1, sym, p1, q⟩ .BUY)
      b2 s2 sym p2 q hq hq1
  refine ⟨hq2, ?_, ?_⟩
  · rw [hr2, hr1, havg1]
  · rw [hd2, hd1, havg1]

theorem pnl_round_trip_witness :
    (((RiskManager.mkDefault.updatePosition ⟨10, 20, "AAPL", 15000, 100⟩
        .BUY).updatePosition ⟨30, 40, "AAPL", 15200, 100⟩
        .SELL).getPosition "AAPL").quantity = 0 ∧
    (((RiskManager.mkDefault.updatePosition ⟨10, 20, "AAPL", 15000, 100⟩
        .BUY).updatePosition ⟨30, 40, "AAPL", 15200, 100⟩
        .SELL).getPosition "AAPL").realizedPnL = 200 ∧
    ((RiskManager.mkDefault.updatePosition ⟨10, 20, "AAPL", 15000, 100⟩
        .BUY).updatePosition ⟨30, 40, "AAPL", 15200, 100⟩
        .SELL).dailyPnL = 200 := by
  have h := pnl_round_trip RiskManager.mkDefault "AAPL" 15000 15200 100
    10 20 30 40 (by decide)
    (by simp [RiskManager.getPosition, RiskManager.mkDefault, lookupPos,
      Position.default])
  refine ⟨h.1, ?_, ?_⟩
  · rw [h.2.1]
    norm_num [RiskManager.getPosition, RiskManager.mkDefault, lookupPos,
      Position.default, priceToRat]
  · rw [h.2.2]
    norm_num [RiskManager.mkDefault, priceToRat]

theorem validateOrder_frame_witness :
    lookupPos ((RiskManager.validateOrder
        { RiskManager.mkDefault with positions := [("X", Position.default)] }
        (Order.mkLimit 2 "AAPL" .SELL .LIMIT 5000 1) 0).2).positions "X" =
      some Position.default :=
  (validateOrder_frame
    { RiskManager.mkDefault with positions := [("X", Position.default)] }
    (Order.mkLimit 2 "AAPL" .SELL .LIMIT 5000 1) 0).2.2.2.2.1
    "X" Position.default (by decide)

end Trading
